import Mathlib

/-!
Shallow embedding of the custom-agents tool layer of the ai-hedge-fund
repository: the tool registry with parameter validation, the analysis
orchestrator state machine, the agent store, and the frontend
custom-agent node logic from custom-agent-node.tsx.  Backend components
absent from the source tree are modelled from the specification, as
marked on each definition.
-/

namespace HedgeFund

/-- Modelled from the spec: the closed set of parameter types of a
Parameter Schema entry (section 3). -/
inductive ParamType where
  | string
  | number
  | boolean
  | array
  | object
deriving DecidableEq

/-- JSON-representable values crossing the tool boundary. -/
inductive JValue where
  | str (s : String)
  | num (n : Int)
  | bool (b : Bool)
  | arr (elems : List JValue)
  | obj (fields : List (String × JValue))

/-- Modelled from the spec: one Parameter Schema entry (section 3). -/
structure ParamEntry where
  name : String
  type : ParamType
  required : Bool
  default : Option JValue
  description : String

/-- Modelled from the spec: remote-failure categories a tool handler may
raise (sections 4.1 and 6). -/
inductive ErrCategory where
  | RATE_LIMITED
  | AUTH_FAILED
  | MARKET_CLOSED
  | NOT_FOUND
  | UNKNOWN
deriving DecidableEq

/-- A failure raised by a tool handler: a category and a message. -/
structure ToolFailure where
  category : ErrCategory
  message : String

/-- Modelled from the spec: a Tool Descriptor (section 3). -/
structure ToolDescriptor where
  name : String
  description : String
  category : String
  parameters : List ParamEntry
  handler : List (String × JValue) → Except ToolFailure JValue
  enabled : Bool

/-- Modelled from the spec: the Tool Registry catalog in registration
order (section 3). -/
abbrev Registry := List ToolDescriptor

/-- Modelled from the spec: the registry-level error taxonomy
(section 7). -/
inductive ToolError where
  | DuplicateToolError (name : String)
  | ToolNotFoundError (name : String)
  | ToolDisabledError (name : String)
  | InvalidParametersError (offenders : List String)
  | ToolExecutionError (category : ErrCategory) (message : String)

/-- Strict type check of a value against a declared parameter type; no
coercion of numeric strings. -/
def typeMatches : JValue → ParamType → Bool
  | .str _, .string => true
  | .num _, .number => true
  | .bool _, .boolean => true
  | .arr _, .array => true
  | .obj _, .object => true
  | _, _ => false

/-- First binding of a key in a parameter map. -/
def lookupParam (params : List (String × JValue)) (key : String) : Option JValue :=
  (params.find? (fun kv => kv.fst == key)).map (fun kv => kv.snd)

/-- Modelled from the spec: registration, failing with
DuplicateToolError on a name collision (section 4.1). -/
def register (reg : Registry) (d : ToolDescriptor) : Except ToolError Registry :=
  if reg.any (fun t => t.name == d.name) then
    .error (.DuplicateToolError d.name)
  else
    .ok (reg ++ [d])

/-- Lookup by name: the first descriptor registered under the name. -/
def findTool (reg : Registry) (name : String) : Option ToolDescriptor :=
  reg.find? (fun t => t.name == name)

/-- The registry state after a register call on the route layer: an
erroring call leaves the catalog as it was. -/
def applyRegister (reg : Registry) (d : ToolDescriptor) : Registry :=
  match register reg d with
  | .ok reg2 => reg2
  | .error _ => reg

/-- Enabled descriptors, in registration order. -/
def enabledTools (reg : Registry) : Registry :=
  reg.filter (fun t => t.enabled)

/-- Modelled from the spec: category view of the catalog, enabled tools
only, in registration order (section 4.1). -/
def toolsInCategory (reg : Registry) (c : String) : List ToolDescriptor :=
  (enabledTools reg).filter (fun t => t.category == c)

/-- Names of required parameters that are absent from the call. -/
def missingRequired (d : ToolDescriptor) (params : List (String × JValue)) : List String :=
  (d.parameters.filter
    (fun p => p.required && (lookupParam params p.name).isNone)).map (fun p => p.name)

/-- Names of present parameters whose value fails the strict type
check. -/
def typeMismatched (d : ToolDescriptor) (params : List (String × JValue)) : List String :=
  d.parameters.filterMap (fun p =>
    match lookupParam params p.name with
    | some v => if typeMatches v p.type then none else some p.name
    | none => none)

/-- Parameter names declared by a descriptor. -/
def declaredNames (d : ToolDescriptor) : List String :=
  d.parameters.map (fun p => p.name)

/-- Keys of the call that the descriptor does not declare. -/
def unknownKeys (d : ToolDescriptor) (params : List (String × JValue)) : List String :=
  (params.filter (fun kv => !(declaredNames d).contains kv.fst)).map (fun kv => kv.fst)

/-- Modelled from the spec: the offending parameter names of a call, in
the order missing-required, type-mismatched, unknown (section 4.1
step 2). -/
def validationErrors (d : ToolDescriptor) (params : List (String × JValue)) : List String :=
  missingRequired d params ++ typeMismatched d params ++ unknownKeys d params

/-- Modelled from the spec: the validated parameter set with missing
optional parameters filled from their declared default (section 4.1
step 3). -/
def withDefaults (d : ToolDescriptor) (params : List (String × JValue)) : List (String × JValue) :=
  params ++ d.parameters.filterMap (fun p =>
    match lookupParam params p.name, p.default with
    | none, some v => some (p.name, v)
    | _, _ => none)

/-- Modelled from the spec: validated execution of one resolved
descriptor (section 4.1 steps 1 to 4). -/
def executeDescriptor (d : ToolDescriptor) (params : List (String × JValue)) : Except ToolError JValue :=
  if !d.enabled then .error (.ToolDisabledError d.name)
  else
    match validationErrors d params with
    | [] =>
      match d.handler (withDefaults d params) with
      | .ok v => .ok v
      | .error f => .error (.ToolExecutionError f.category f.message)
    | errs => .error (.InvalidParametersError errs)

/-- Modelled from the spec: the central execute operation of the Tool
Registry (section 4.1). -/
def execute (reg : Registry) (name : String) (params : List (String × JValue)) : Except ToolError JValue :=
  match findTool reg name with
  | none => .error (.ToolNotFoundError name)
  | some d => executeDescriptor d params

/-- Replace the handler of every descriptor registered under a name;
used to state that validation failures never reach the handler. -/
def setHandler (reg : Registry) (name : String)
    (h : List (String × JValue) → Except ToolFailure JValue) : Registry :=
  reg.map (fun t =>
    if t.name == name then ⟨t.name, t.description, t.category, t.parameters, h, t.enabled⟩ else t)

/-- An exported parameter description in the wire schema shape of
section 6. -/
structure ExportedParam where
  name : String
  type : ParamType
  required : Bool
  default : Option JValue
  description : String

/-- An exported callable-tool definition in the wire schema shape of
section 6. -/
structure ToolSchema where
  name : String
  description : String
  category : String
  parameters : List ExportedParam

/-- Export of one Parameter Schema entry. -/
def exportParam (p : ParamEntry) : ExportedParam :=
  ⟨p.name, p.type, p.required, p.default, p.description⟩

/-- Export of one descriptor to the wire schema shape. -/
def exportDescriptorSchema (d : ToolDescriptor) : ToolSchema :=
  ⟨d.name, d.description, d.category, d.parameters.map exportParam⟩

/-- Modelled from the spec: schema export for all enabled tools
(section 4.1). -/
def exportSchemaAll (reg : Registry) : List ToolSchema :=
  (enabledTools reg).map exportDescriptorSchema

/-- The schema-export operation as a state-passing registry operation:
it returns the schemas together with the registry state it leaves
behind, so that purity is an explicit statement. -/
def exportSchemaOp (reg : Registry) : List ToolSchema × Registry :=
  (exportSchemaAll reg, reg)

/-- Modelled from the spec: an Agent Definition (section 3). -/
structure AgentDefinition where
  name : String
  description : String
  model : String
  tool_names : List String
  system_prompt : String

/-- Modelled from the spec: one requested tool call in a model response,
tagged with its originating call identifier (section 4.3 step 3). -/
structure ToolCall where
  id : Nat
  name : String
  arguments : List (String × JValue)

/-- Modelled from the spec: a response of the external LLM capability
(section 6). -/
inductive LLMResponse where
  | finalAnswer (text : String)
  | toolCalls (calls : List ToolCall)

/-- A conversation turn: the assembled first context turn, or a
tool-result turn tagged with the originating call identifier. -/
inductive Turn where
  | context (systemPrompt : String) (schemas : List ToolSchema) (payload : JValue)
  | toolResult (callId : Nat) (outcome : Except ToolError JValue)

/-- Modelled from the spec: the states of the Analysis Orchestrator
state machine (section 4.3). -/
inductive RunState where
  | BUILDING_CONTEXT
  | AWAITING_MODEL
  | DISPATCHING_TOOLS
  | DONE
  | FAILED
deriving DecidableEq

/-- Modelled from the spec: the run-level error taxonomy (section 7). -/
inductive RunError where
  | StaleToolReferenceError (name : String)
  | ModelUnavailableError
  | IterationLimitExceededError
deriving DecidableEq

/-- The observable outcome of one analysis run: the chronological
sequence of states entered, the final answer or run-level error, the
final conversation, and the number of dispatch rounds performed. -/
structure RunOutcome where
  states : List RunState
  result : Except RunError String
  trace : List Turn
  rounds : Nat

/-- Modelled from the spec: dispatching the requested calls of one model
turn through the registry, each outcome appended as a tool-result turn
tagged with its call identifier (section 4.3 step 3). -/
def dispatchCalls (reg : Registry) (calls : List ToolCall) : List Turn :=
  calls.map (fun c => .toolResult c.id (execute reg c.name c.arguments))

/-- Whether a model response requests tool calls. -/
def requestsTools : LLMResponse → Bool
  | .finalAnswer _ => false
  | .toolCalls _ => true

/-- Modelled from the spec: the orchestrator loop from the
AWAITING_MODEL state, with the remaining iteration budget, the round
index fed to the stubbed LLM, and the conversation so far (section 4.3
steps 2 to 4). -/
def runFrom (reg : Registry) (llm : Nat → LLMResponse) :
    Nat → Nat → List Turn → RunOutcome
  | 0, round, conv =>
    match llm round with
    | .finalAnswer a => ⟨[.AWAITING_MODEL, .DONE], .ok a, conv, 0⟩
    | .toolCalls _ =>
      ⟨[.AWAITING_MODEL, .FAILED], .error .IterationLimitExceededError, conv, 0⟩
  | n + 1, round, conv =>
    match llm round with
    | .finalAnswer a => ⟨[.AWAITING_MODEL, .DONE], .ok a, conv, 0⟩
    | .toolCalls calls =>
      let rest := runFrom reg llm n (round + 1) (conv ++ dispatchCalls reg calls)
      ⟨.AWAITING_MODEL :: .DISPATCHING_TOOLS :: rest.states, rest.result, rest.trace,
        rest.rounds + 1⟩

/-- Referenced tool names that no longer resolve to an enabled
descriptor. -/
def staleTools (reg : Registry) (agent : AgentDefinition) : List String :=
  agent.tool_names.filter (fun n =>
    match findTool reg n with
    | some d => !d.enabled
    | none => true)

/-- The first conversation turn: system prompt, the exported schemas of
exactly the selected tools, and the input payload. -/
def initialConv (reg : Registry) (agent : AgentDefinition) (payload : JValue) : List Turn :=
  [.context agent.system_prompt
    ((agent.tool_names.filterMap (findTool reg)).map exportDescriptorSchema) payload]

/-- Modelled from the spec: one analysis run, starting in
BUILDING_CONTEXT where every referenced tool is re-validated before any
LLM call (section 4.3 step 1). -/
def analyze (reg : Registry) (agent : AgentDefinition) (llm : Nat → LLMResponse)
    (payload : JValue) (iterationBound : Nat) : RunOutcome :=
  match staleTools reg agent with
  | n :: _ => ⟨[.BUILDING_CONTEXT, .FAILED], .error (.StaleToolReferenceError n), [], 0⟩
  | [] =>
    let r := runFrom reg llm iterationBound 0 (initialConv reg agent payload)
    ⟨.BUILDING_CONTEXT :: r.states, r.result, r.trace, r.rounds⟩

/-- Modelled from the spec: the agent-store error taxonomy relevant to
save (sections 4.2 and 7). -/
inductive AgentStoreError where
  | EmptyNameError
  | UnresolvableToolError (name : String)
  | AgentNotFoundError (name : String)

/-- Lookup of a saved agent by name, first match in creation order. -/
def findAgent (store : List AgentDefinition) (name : String) : Option AgentDefinition :=
  store.find? (fun b => b.name == name)

/-- Modelled from the spec: upsert of an Agent Definition keyed on name;
saving an existing name overwrites it in place (sections 3 and 4.2). -/
def upsert (store : List AgentDefinition) (a : AgentDefinition) : List AgentDefinition :=
  if store.any (fun b => b.name == a.name) then
    store.map (fun b => if b.name == a.name then a else b)
  else store ++ [a]

/-- Modelled from the spec: the save operation of the Agent Store,
validating a non-empty name and that every referenced tool name resolves
via the Registry, then upserting (section 4.2). -/
def saveAgent (reg : Registry) (store : List AgentDefinition) (a : AgentDefinition) :
    Except AgentStoreError (List AgentDefinition) :=
  if a.name = "" then .error .EmptyNameError
  else
    match a.tool_names.filter (fun n => (findTool reg n).isNone) with
    | n :: _ => .error (.UnresolvableToolError n)
    | [] => .ok (upsert store a)

/-! Frontend model, from
src/app/frontend/src/nodes/components/custom-agent-node.tsx. -/

/-- The agent payload the frontend posts to the agent-save endpoint
(custom-agent-node.tsx, handleSave). -/
structure AgentPayload where
  name : String
  description : String
  model : String
  tools : List String
  system_prompt : String

/-- What one handleSave click does: either report a validation error and
issue no request, or issue a save request with the assembled payload. -/
inductive SaveAction where
  | validationFailure
  | requestSave (payload : AgentPayload)

/-- JavaScript String.prototype.trim on the character list of a
string. -/
def jsTrim (s : List Char) : List Char :=
  ((s.dropWhile Char.isWhitespace).reverse.dropWhile Char.isWhitespace).reverse

/-- Trimmed character list of a string, as the frontend guard computes
it. -/
def jsTrimStr (s : String) : List Char :=
  jsTrim s.data

/-- The JavaScript expression v or-else dflt for an optional string v:
the default is taken when v is undefined or the empty string (both are
falsy). -/
def jsOrDefault (v : Option String) (dflt : String) : String :=
  match v with
  | none => dflt
  | some s => if s = "" then dflt else s

/-- handleSave from custom-agent-node.tsx: a blank (empty after trim)
agent name reports an error and returns before any request; otherwise
the payload is assembled, with the model defaulted to gpt-4o when
data.model is absent or empty. -/
def handleSave (agentName agentDescription : String) (dataModel : Option String)
    (selectedTools : List String) (systemPrompt : String) : SaveAction :=
  if jsTrimStr agentName = [] then .validationFailure
  else .requestSave
    ⟨agentName, agentDescription, jsOrDefault dataModel "gpt-4o", selectedTools, systemPrompt⟩

/-- The effect of one handleSave click on the backend Agent Store: no
request leaves the store untouched; a request applies the save
operation, an erroring save leaving the store as it was. -/
def applySaveAction (reg : Registry) (store : List AgentDefinition) :
    SaveAction → List AgentDefinition
  | .validationFailure => store
  | .requestSave p =>
    match saveAgent reg store ⟨p.name, p.description, p.model, p.tools, p.system_prompt⟩ with
    | .ok store2 => store2
    | .error _ => store

/-- handleToolToggle from custom-agent-node.tsx: remove a selected tool
name, or append an unselected one. -/
def handleToolToggle (prev : List String) (toolName : String) : List String :=
  if prev.contains toolName then prev.filter (fun t => t != toolName)
  else prev ++ [toolName]

/-- The Run button disabled predicate from custom-agent-node.tsx. -/
def runButtonDisabled (isLoading : Bool) (selectedTools : List String) : Bool :=
  isLoading || selectedTools.length == 0

/-- Whether a click on the Run button reaches runAnalysis: a disabled
button dispatches nothing. -/
def runClickDispatches (isLoading : Bool) (selectedTools : List String) : Bool :=
  !runButtonDisabled isLoading selectedTools

/-! Concrete demonstration objects, used to instantiate the theorems
below at executable inputs. -/

/-- A required string parameter, as on the quote tool. -/
def demoQuoteParam : ParamEntry :=
  ⟨"symbol", .string, true, none, "Ticker symbol"⟩

/-- A registered quote tool with one required parameter. -/
def demoQuoteTool : ToolDescriptor :=
  ⟨"get_latest_quote", "Get current bid and ask quotes", "alpaca_market_data",
    [demoQuoteParam], fun _ => .ok (.obj []), true⟩

/-- A registered account tool whose remote handler is rate limited. -/
def demoFailTool : ToolDescriptor :=
  ⟨"get_account", "Get account information", "alpaca_account", [],
    fun _ => .error ⟨.RATE_LIMITED, "rate limited"⟩, true⟩

/-- A clock tool that has been disabled. -/
def demoDisabledTool : ToolDescriptor :=
  ⟨"get_clock", "Get market status", "alpaca_market_data", [],
    fun _ => .ok (.obj []), false⟩

/-- A second descriptor registered under the quote tool name. -/
def demoDuplicateTool : ToolDescriptor :=
  ⟨"get_latest_quote", "A second quote tool", "alpaca_market_data", [],
    fun _ => .ok (.obj []), true⟩

/-- A registry holding the quote tool. -/
def demoRegistry : Registry := [demoQuoteTool]

/-- A registry holding the rate-limited account tool. -/
def demoRegistry2 : Registry := [demoFailTool]

/-- A registry holding only the disabled clock tool. -/
def demoRegistry3 : Registry := [demoDisabledTool]

/-- A requested call of the account tool. -/
def demoCall : ToolCall := ⟨1, "get_account", []⟩

/-- A stubbed LLM that always requests the account tool. -/
def demoLLM : Nat → LLMResponse := fun _ => .toolCalls [demoCall]

/-- An agent selecting the account tool. -/
def demoAgent : AgentDefinition := ⟨"A1", "demo", "gpt-4o", ["get_account"], ""⟩

/-- An agent selecting the clock tool, saved before it was disabled. -/
def demoStaleAgent : AgentDefinition := ⟨"A2", "demo", "gpt-4o", ["get_clock"], ""⟩

/-- The stored agent definition before an upsert. -/
def demoStoredAgent : AgentDefinition := ⟨"A1", "old version", "gpt-4o", [], "old"⟩

/-- A new definition saved under the already-stored name. -/
def demoNewAgent : AgentDefinition := ⟨"A1", "new version", "gpt-4o", [], "new"⟩

/-- A store holding the old definition. -/
def demoStore : List AgentDefinition := [demoStoredAgent]

/-! Helper lemmas. -/

/-- A string all of whose characters are whitespace trims to nothing. -/
lemma jsTrimStr_of_all_whitespace (s : String) (h : ∀ c ∈ s.data, c.isWhitespace) :
    jsTrimStr s = [] := by
  unfold jsTrimStr jsTrim
  rw [List.dropWhile_eq_nil_iff.mpr h]
  simp

/-- Replacing the bindings of an already-present name makes the new
definition the one found under that name. -/
lemma find_of_upsert_replace (a : AgentDefinition) :
    ∀ store : List AgentDefinition, (∃ b ∈ store, b.name = a.name) →
      List.find? (fun x => x.name == a.name)
        (store.map (fun b => if b.name == a.name then a else b)) = some a := by
  intro store
  induction store with
  | nil =>
    intro h
    rcases h with ⟨b, hb, _⟩
    cases hb
  | cons c cs ih =>
    intro h
    by_cases hc : c.name = a.name
    · simp [List.find?, hc]
    · rcases h with ⟨b, hb, he⟩
      rcases List.mem_cons.mp hb with h1 | h1
      · exact absurd (h1 ▸ he) hc
      · have hstep : ((c :: cs).map (fun b => if b.name == a.name then a else b))
            = c :: cs.map (fun b => if b.name == a.name then a else b) := by
          simp [hc]
        rw [hstep, List.find?_cons_of_neg]
        · exact ih ⟨b, h1, he⟩
        · simp [hc]

/-! Claim theorems. -/

/-- C8 counterexample: toggling a present tool twice does not restore the
original ordered selection; the toggled tool moves to the end. -/
theorem handleToolToggle_not_involutive :
    ¬ handleToolToggle (handleToolToggle ["a", "b"] "a") "a" = ["a", "b"] := by
  decide

/-- C8 (amended): on a duplicate-free selection, toggling a present name
removes every occurrence of it, toggling an absent name appends it
exactly once, toggling never introduces a duplicate, and toggling twice
yields a permutation of the original selection, which is the original
selection itself whenever the name was absent. -/
theorem handleToolToggle_amended (l : List String) (t : String) (hnd : l.Nodup) :
    (handleToolToggle l t).Nodup ∧
    (t ∈ l → handleToolToggle l t = l.filter (fun x => x != t) ∧ t ∉ handleToolToggle l t) ∧
    (t ∉ l → handleToolToggle l t = l ++ [t] ∧ (handleToolToggle l t).count t = 1) ∧
    (handleToolToggle (handleToolToggle l t) t).Perm l ∧
    (t ∉ l → handleToolToggle (handleToolToggle l t) t = l) := by
  by_cases hm : t ∈ l
  · have hc : l.contains t = true := List.elem_iff.mpr hm
    have h1 : handleToolToggle l t = l.filter (fun x => x != t) := by
      simp [handleToolToggle, hc, hm]
    have hnotmem : t ∉ l.filter (fun x => x != t) := by
      intro hx
      have := List.of_mem_filter hx
      simp at this
    have h1nd : (l.filter (fun x => x != t)).Nodup := hnd.filter _
    have hc2 : (l.filter (fun x => x != t)).contains t = false := by
      simp [hnotmem]
    have h2 : handleToolToggle (handleToolToggle l t) t
        = l.filter (fun x => x != t) ++ [t] := by
      rw [h1]
      simp [handleToolToggle, hc2, hnotmem]
    refine ⟨?_, fun _ => ⟨h1, ?_⟩, fun hab => absurd hm hab, ?_, fun hab => absurd hm hab⟩
    · rw [h1]
      exact h1nd
    · rw [h1]
      exact hnotmem
    · rw [h2]
      have hnd2 : (l.filter (fun x => x != t) ++ [t]).Nodup := by
        refine List.Nodup.append h1nd (List.nodup_singleton t) ?_
        intro x hx hx2
        rw [List.mem_singleton] at hx2
        exact hnotmem (hx2 ▸ hx)
      refine (List.perm_ext_iff_of_nodup hnd2 hnd).mpr ?_
      intro x
      constructor
      · intro hx
        rcases List.mem_append.mp hx with hx | hx
        · exact (List.mem_filter.mp hx).1
        · rw [List.mem_singleton] at hx
          exact hx ▸ hm
      · intro hx
        by_cases hxt : x = t
        · exact List.mem_append.mpr (Or.inr (List.mem_singleton.mpr hxt))
        · exact List.mem_append.mpr (Or.inl (List.mem_filter.mpr ⟨hx, by simp [hxt]⟩))
  · have hc : l.contains t = false := by
      simpa using hm
    have h1 : handleToolToggle l t = l ++ [t] := by
      simp [handleToolToggle, hc, hm]
    have hmem2 : t ∈ l ++ [t] := List.mem_append.mpr (Or.inr (List.mem_singleton.mpr rfl))
    have hc2 : (l ++ [t]).contains t = true := List.elem_iff.mpr hmem2
    have hfl : l.filter (fun x => x != t) = l := by
      refine List.filter_eq_self.mpr ?_
      intro x hx
      have hxt : x ≠ t := fun he => hm (he ▸ hx)
      simp [hxt]
    have h2 : handleToolToggle (handleToolToggle l t) t = l := by
      rw [h1]
      simp [handleToolToggle, hc2, hmem2, List.filter_append, hfl]
    refine ⟨?_, fun hab => absurd hab hm, fun _ => ⟨h1, ?_⟩, ?_, fun _ => h2⟩
    · rw [h1]
      refine List.Nodup.append hnd (List.nodup_singleton t) ?_
      intro x hx hx2
      rw [List.mem_singleton] at hx2
      exact hm (hx2 ▸ hx)
    · rw [h1, List.count_append]
      have hz : l.count t = 0 := List.count_eq_zero.mpr hm
      simp [hz]
    · rw [h2]

/-- C8 witness: the amended properties at a concrete selection. -/
theorem handleToolToggle_amended_witness :
    (handleToolToggle ["a", "b"] "b").Nodup ∧
    handleToolToggle (handleToolToggle ["a", "b"] "c") "c" = ["a", "b"] := by
  have h1 := handleToolToggle_amended ["a", "b"] "b" (by decide)
  have h2 := handleToolToggle_amended ["a", "b"] "c" (by decide)
  exact ⟨h1.1, h2.2.2.2.2 (by decide)⟩

/-- C9: the payload handleSave sends carries model gpt-4o whenever
data.model is undefined or empty, carries data.model itself otherwise,
and is never empty. -/
theorem handleSave_model_default (agentName agentDescription : String)
    (dataModel : Option String) (selectedTools : List String) (systemPrompt : String) :
    ((dataModel = none ∨ dataModel = some "") →
      ∀ p, handleSave agentName agentDescription dataModel selectedTools systemPrompt
          = .requestSave p → p.model = "gpt-4o") ∧
    (∀ m, dataModel = some m → m ≠ "" →
      ∀ p, handleSave agentName agentDescription dataModel selectedTools systemPrompt
          = .requestSave p → p.model = m) ∧
    (∀ p, handleSave agentName agentDescription dataModel selectedTools systemPrompt
          = .requestSave p → p.model ≠ "") := by
  unfold handleSave
  by_cases hg : jsTrimStr agentName = []
  · rw [if_pos hg]
    refine ⟨fun _ p hp => ?_, fun m _ _ p hp => ?_, fun p hp => ?_⟩ <;> cases hp
  · rw [if_neg hg]
    refine ⟨fun hd p hp => ?_, fun m hm hme p hp => ?_, fun p hp => ?_⟩
    · cases hp
      rcases hd with hd | hd <;> subst hd <;> simp [jsOrDefault]
    · cases hp
      subst hm
      simp [jsOrDefault, hme]
    · cases hp
      cases dataModel with
      | none => simp [jsOrDefault]
      | some s =>
        by_cases hs : s = "" <;> simp [jsOrDefault, hs]

/-- C9 witness: a node without a model saves with model gpt-4o. -/
theorem handleSave_model_default_witness :
    handleSave "Analyst" "d" none ["get_clock"] "sp"
      = .requestSave ⟨"Analyst", "d", "gpt-4o", ["get_clock"], "sp"⟩ ∧
    AgentPayload.model ⟨"Analyst", "d", "gpt-4o", ["get_clock"], "sp"⟩ = "gpt-4o" := by
  refine ⟨by rfl, ?_⟩
  exact (handleSave_model_default "Analyst" "d" none ["get_clock"] "sp").1 (Or.inl rfl) _ (by rfl)

/-- C7: a blank (empty or all-whitespace) agent name makes handleSave
report a validation error with no request issued, leaving the Agent
Store unchanged, while saving under an already-present name succeeds as
an upsert that overwrites the stored definition. -/
theorem agent_save_validation (reg : Registry) (store : List AgentDefinition)
    (agentName agentDescription : String) (dataModel : Option String)
    (selectedTools : List String) (systemPrompt : String) (a : AgentDefinition) :
    ((∀ c ∈ agentName.data, c.isWhitespace) →
      handleSave agentName agentDescription dataModel selectedTools systemPrompt
        = .validationFailure ∧
      applySaveAction reg store
        (handleSave agentName agentDescription dataModel selectedTools systemPrompt) = store) ∧
    (a.name ≠ "" → (∀ n ∈ a.tool_names, (findTool reg n).isSome = true) →
      (∃ b ∈ store, b.name = a.name) →
      saveAgent reg store a = .ok (upsert store a) ∧
      findAgent (upsert store a) a.name = some a) := by
  constructor
  · intro hws
    have hguard : jsTrimStr agentName = [] := jsTrimStr_of_all_whitespace agentName hws
    have hsave : handleSave agentName agentDescription dataModel selectedTools systemPrompt
        = .validationFailure := by
      simp [handleSave, hguard]
    refine ⟨hsave, ?_⟩
    rw [hsave]
    rfl
  · intro hne hres hmem
    have hfilter : a.tool_names.filter (fun n => (findTool reg n).isNone) = [] := by
      refine List.filter_eq_nil_iff.mpr ?_
      intro n hn
      have hs := hres n hn
      intro hcontra
      rw [Option.isNone_iff_eq_none] at hcontra
      rw [hcontra] at hs
      simp at hs
    have hok : saveAgent reg store a = .ok (upsert store a) := by
      simp [saveAgent, hne, hfilter]
    have hany : store.any (fun b => b.name == a.name) = true := by
      rcases hmem with ⟨b, hb, he⟩
      exact List.any_eq_true.mpr ⟨b, hb, by simp [he]⟩
    have hfa : findAgent (upsert store a) a.name = some a := by
      unfold findAgent upsert
      rw [if_pos hany]
      exact find_of_upsert_replace a store hmem
    exact ⟨hok, hfa⟩

/-- C7 witness: a whitespace-only name is rejected with the store
untouched, and saving under the stored name upserts. -/
theorem agent_save_validation_witness :
    handleSave " " "d" none [] "" = .validationFailure ∧
    applySaveAction demoRegistry demoStore (handleSave " " "d" none [] "") = demoStore ∧
    saveAgent demoRegistry demoStore demoNewAgent = .ok (upsert demoStore demoNewAgent) ∧
    findAgent (upsert demoStore demoNewAgent) demoNewAgent.name = some demoNewAgent := by
  have H := agent_save_validation demoRegistry demoStore " " "d" none [] "" demoNewAgent
  have H1 := H.1 (by decide)
  have H2 := H.2 (by decide) (by decide) ⟨demoStoredAgent, by simp [demoStore], rfl⟩
  exact ⟨H1.1, H1.2, H2.1, H2.2⟩

/-- C10: with no tools selected, or while a run is in progress, the Run
button is disabled and a click dispatches no analysis request. -/
theorem run_button_guard (isLoading : Bool) (selectedTools : List String)
    (h : selectedTools = [] ∨ isLoading = true) :
    runButtonDisabled isLoading selectedTools = true ∧
    runClickDispatches isLoading selectedTools = false := by
  rcases h with h | h
  · subst h
    simp [runButtonDisabled, runClickDispatches]
  · subst h
    simp [runButtonDisabled, runClickDispatches]

/-- C10 witness: the guard at an idle node with no tools selected. -/
theorem run_button_guard_witness :
    runButtonDisabled false [] = true ∧ runClickDispatches false [] = false :=
  run_button_guard false [] (Or.inl rfl)

/-- A required parameter absent from the call is named among the
validation errors. -/
lemma mem_missingRequired {d : ToolDescriptor} {params : List (String × JValue)}
    {p : ParamEntry} (hp : p ∈ d.parameters) (hr : p.required = true)
    (hn : lookupParam params p.name = none) : p.name ∈ missingRequired d params := by
  unfold missingRequired
  exact List.mem_map.mpr ⟨p, List.mem_filter.mpr ⟨hp, by simp [hr, hn]⟩, rfl⟩

/-- A present parameter failing the strict type check is named among the
validation errors. -/
lemma mem_typeMismatched {d : ToolDescriptor} {params : List (String × JValue)}
    {p : ParamEntry} {v : JValue} (hp : p ∈ d.parameters)
    (hv : lookupParam params p.name = some v) (ht : typeMatches v p.type = false) :
    p.name ∈ typeMismatched d params := by
  unfold typeMismatched
  exact List.mem_filterMap.mpr ⟨p, hp, by simp [hv, ht]⟩

/-- An undeclared key of the call is named among the validation
errors. -/
lemma mem_unknownKeys {d : ToolDescriptor} {params : List (String × JValue)}
    {kv : String × JValue} (hkv : kv ∈ params)
    (hu : (declaredNames d).contains kv.fst = false) : kv.fst ∈ unknownKeys d params := by
  unfold unknownKeys
  have hnm : kv.fst ∉ declaredNames d := by
    simpa using hu
  exact List.mem_map.mpr ⟨kv, List.mem_filter.mpr ⟨hkv, by simp [hnm]⟩, rfl⟩

/-- Swapping the handler of a name changes only the handler field of the
descriptor that lookup resolves. -/
lemma findTool_setHandler (reg : Registry) (name : String)
    (h : List (String × JValue) → Except ToolFailure JValue) :
    findTool (setHandler reg name h) name = (findTool reg name).map
      (fun d => ⟨d.name, d.description, d.category, d.parameters, h, d.enabled⟩) := by
  unfold findTool setHandler
  induction reg with
  | nil => rfl
  | cons t ts ih =>
    by_cases ht : t.name = name
    · have hbeq : (t.name == name) = true := by simp [ht]
      simp [List.find?, hbeq]
    · have hbeq : (t.name == name) = false := by simp [ht]
      simpa [List.find?, hbeq] using ih

/-- C1: a call on a registered, enabled tool with a missing required
parameter, a type-mismatched value, or an undeclared key is rejected
with InvalidParametersError naming every offending parameter, whatever
handler the tool carries, so the handler is never invoked. -/
theorem execute_invalid_params_rejected (reg : Registry) (name : String)
    (params : List (String × JValue)) (d : ToolDescriptor)
    (hfind : findTool reg name = some d) (hen : d.enabled = true)
    (hbad : (∃ p ∈ d.parameters, p.required = true ∧ lookupParam params p.name = none)
      ∨ (∃ p ∈ d.parameters, ∃ v, lookupParam params p.name = some v
          ∧ typeMatches v p.type = false)
      ∨ (∃ kv ∈ params, (declaredNames d).contains kv.fst = false)) :
    validationErrors d params ≠ [] ∧
    execute reg name params = .error (.InvalidParametersError (validationErrors d params)) ∧
    (∀ h, execute (setHandler reg name h) name params
        = .error (.InvalidParametersError (validationErrors d params))) ∧
    (∀ p ∈ d.parameters, p.required = true → lookupParam params p.name = none →
      p.name ∈ validationErrors d params) ∧
    (∀ p ∈ d.parameters, ∀ v, lookupParam params p.name = some v →
      typeMatches v p.type = false → p.name ∈ validationErrors d params) ∧
    (∀ kv ∈ params, (declaredNames d).contains kv.fst = false →
      kv.fst ∈ validationErrors d params) := by
  have hne : validationErrors d params ≠ [] := by
    rcases hbad with ⟨p, hp, hr, hn⟩ | ⟨p, hp, v, hv, ht⟩ | ⟨kv, hkv, hu⟩
    · exact List.ne_nil_of_mem (List.mem_append.mpr
        (Or.inl (List.mem_append.mpr (Or.inl (mem_missingRequired hp hr hn)))))
    · exact List.ne_nil_of_mem (List.mem_append.mpr
        (Or.inl (List.mem_append.mpr (Or.inr (mem_typeMismatched hp hv ht)))))
    · exact List.ne_nil_of_mem (List.mem_append.mpr (Or.inr (mem_unknownKeys hkv hu)))
  obtain ⟨e, rest, hve⟩ : ∃ e rest, validationErrors d params = e :: rest := by
    cases hv : validationErrors d params with
    | nil => exact absurd hv hne
    | cons e rest => exact ⟨e, rest, rfl⟩
  refine ⟨hne, ?_, ?_, ?_, ?_, ?_⟩
  · simp [execute, hfind, executeDescriptor, hen, hve]
  · intro h
    rw [execute, findTool_setHandler, hfind]
    have hve2 : validationErrors
        ⟨d.name, d.description, d.category, d.parameters, h, d.enabled⟩ params
        = e :: rest := hve
    have hve3 : validationErrors
        ⟨d.name, d.description, d.category, d.parameters, h, true⟩ params
        = e :: rest := hve
    simp [executeDescriptor, hen, hve, hve2, hve3]
  · intro p hp hr hn
    exact List.mem_append.mpr
      (Or.inl (List.mem_append.mpr (Or.inl (mem_missingRequired hp hr hn))))
  · intro p hp v hv ht
    exact List.mem_append.mpr
      (Or.inl (List.mem_append.mpr (Or.inr (mem_typeMismatched hp hv ht))))
  · intro kv hkv hu
    exact List.mem_append.mpr (Or.inr (mem_unknownKeys hkv hu))

/-- C1 witness: calling the quote tool without its required symbol
parameter is rejected naming symbol. -/
theorem execute_invalid_params_rejected_witness :
    validationErrors demoQuoteTool [] ≠ [] ∧
    execute demoRegistry "get_latest_quote" []
      = .error (.InvalidParametersError (validationErrors demoQuoteTool [])) ∧
    "symbol" ∈ validationErrors demoQuoteTool [] := by
  have H := execute_invalid_params_rejected demoRegistry "get_latest_quote" [] demoQuoteTool
    rfl rfl (Or.inl ⟨demoQuoteParam, by simp [demoQuoteTool], rfl, rfl⟩)
  exact ⟨H.1, H.2.1, H.2.2.2.1 demoQuoteParam (by simp [demoQuoteTool]) rfl rfl⟩

/-- C4: registering under an already-registered name fails with
DuplicateToolError and leaves the catalog exactly as it was, the first
registration included. -/
theorem register_duplicate_rejected (reg : Registry) (d d0 : ToolDescriptor)
    (hfind : findTool reg d.name = some d0) :
    register reg d = .error (.DuplicateToolError d.name) ∧
    applyRegister reg d = reg ∧
    findTool (applyRegister reg d) d.name = some d0 ∧
    (∀ n, findTool (applyRegister reg d) n = findTool reg n) ∧
    (∀ c, toolsInCategory (applyRegister reg d) c = toolsInCategory reg c) := by
  have hfind2 : reg.find? (fun t => t.name == d.name) = some d0 := hfind
  have hmem : d0 ∈ reg := List.mem_of_find?_eq_some hfind2
  have hpred0 := List.find?_some hfind2
  have hpred : (d0.name == d.name) = true := hpred0
  have hany : reg.any (fun t => t.name == d.name) = true :=
    List.any_eq_true.mpr ⟨d0, hmem, hpred⟩
  have hreg : register reg d = .error (.DuplicateToolError d.name) := by
    simp [register, hany]
  have happ : applyRegister reg d = reg := by
    simp [applyRegister, hreg]
  exact ⟨hreg, happ, by rw [happ]; exact hfind, fun n => by rw [happ], fun c => by rw [happ]⟩

/-- C4 witness: a second registration under the quote tool name is
rejected and the catalog still resolves the first descriptor. -/
theorem register_duplicate_rejected_witness :
    register demoRegistry demoDuplicateTool
      = .error (.DuplicateToolError demoDuplicateTool.name) ∧
    applyRegister demoRegistry demoDuplicateTool = demoRegistry ∧
    findTool (applyRegister demoRegistry demoDuplicateTool) demoDuplicateTool.name
      = some demoQuoteTool := by
  have H := register_duplicate_rejected demoRegistry demoDuplicateTool demoQuoteTool rfl
  exact ⟨H.1, H.2.1, H.2.2.1⟩

/-- C6: schema export returns the registry unchanged, and for every
enabled registered tool it emits an entry whose parameter names, types,
required flags and defaults are exactly those of the descriptor's
Parameter Schema. -/
theorem export_schema_round_trip (reg : Registry) (d : ToolDescriptor)
    (hmem : d ∈ reg) (hen : d.enabled = true) :
    (exportSchemaOp reg).snd = reg ∧
    ∃ e ∈ (exportSchemaOp reg).fst,
      e.name = d.name ∧
      e.parameters.map ExportedParam.name = d.parameters.map ParamEntry.name ∧
      e.parameters.map ExportedParam.type = d.parameters.map ParamEntry.type ∧
      e.parameters.map ExportedParam.required = d.parameters.map ParamEntry.required ∧
      e.parameters.map ExportedParam.default = d.parameters.map ParamEntry.default := by
  refine ⟨rfl, exportDescriptorSchema d, ?_, rfl, ?_, ?_, ?_, ?_⟩
  · exact List.mem_map.mpr ⟨d, List.mem_filter.mpr ⟨hmem, by simp [hen]⟩, rfl⟩
  · rw [exportDescriptorSchema, List.map_map]
    rfl
  · rw [exportDescriptorSchema, List.map_map]
    rfl
  · rw [exportDescriptorSchema, List.map_map]
    rfl
  · rw [exportDescriptorSchema, List.map_map]
    rfl

/-- C6 witness: the exported schema of the quote tool round-trips its
parameter schema. -/
theorem export_schema_round_trip_witness :
    (exportSchemaOp demoRegistry).snd = demoRegistry ∧
    ∃ e ∈ (exportSchemaOp demoRegistry).fst,
      e.name = demoQuoteTool.name ∧
      e.parameters.map ExportedParam.name = demoQuoteTool.parameters.map ParamEntry.name ∧
      e.parameters.map ExportedParam.type = demoQuoteTool.parameters.map ParamEntry.type ∧
      e.parameters.map ExportedParam.required
        = demoQuoteTool.parameters.map ParamEntry.required ∧
      e.parameters.map ExportedParam.default
        = demoQuoteTool.parameters.map ParamEntry.default :=
  export_schema_round_trip demoRegistry demoQuoteTool (by simp [demoRegistry]) rfl

/-- A tool-requesting response is a toolCalls response. -/
lemma requestsTools_eq {res : LLMResponse} (h : requestsTools res = true) :
    ∃ calls, res = .toolCalls calls := by
  cases res with
  | finalAnswer a => simp [requestsTools] at h
  | toolCalls calls => exact ⟨calls, rfl⟩

/-- One-step unfolding of the loop at an exhausted budget. -/
lemma runFrom_zero (reg : Registry) (llm : Nat → LLMResponse) (round : Nat)
    (conv : List Turn) :
    runFrom reg llm 0 round conv =
      match llm round with
      | .finalAnswer a => ⟨[.AWAITING_MODEL, .DONE], .ok a, conv, 0⟩
      | .toolCalls _ =>
        ⟨[.AWAITING_MODEL, .FAILED], .error .IterationLimitExceededError, conv, 0⟩ := rfl

/-- One-step unfolding of the loop with budget left. -/
lemma runFrom_succ (reg : Registry) (llm : Nat → LLMResponse) (n round : Nat)
    (conv : List Turn) :
    runFrom reg llm (n + 1) round conv =
      match llm round with
      | .finalAnswer a => ⟨[.AWAITING_MODEL, .DONE], .ok a, conv, 0⟩
      | .toolCalls calls =>
        ⟨.AWAITING_MODEL :: .DISPATCHING_TOOLS ::
            (runFrom reg llm n (round + 1) (conv ++ dispatchCalls reg calls)).states,
          (runFrom reg llm n (round + 1) (conv ++ dispatchCalls reg calls)).result,
          (runFrom reg llm n (round + 1) (conv ++ dispatchCalls reg calls)).trace,
          (runFrom reg llm n (round + 1) (conv ++ dispatchCalls reg calls)).rounds + 1⟩ := rfl

/-- The loop fails immediately when the budget is exhausted and the
model requests tools. -/
lemma runFrom_calls_zero (reg : Registry) (llm : Nat → LLMResponse) (round : Nat)
    (conv : List Turn) (calls : List ToolCall) (h : llm round = .toolCalls calls) :
    runFrom reg llm 0 round conv =
      ⟨[.AWAITING_MODEL, .FAILED], .error .IterationLimitExceededError, conv, 0⟩ := by
  rw [runFrom_zero, h]

/-- The loop dispatches and recurses when budget is left and the model
requests tools. -/
lemma runFrom_calls_succ (reg : Registry) (llm : Nat → LLMResponse) (n round : Nat)
    (conv : List Turn) (calls : List ToolCall) (h : llm round = .toolCalls calls) :
    runFrom reg llm (n + 1) round conv =
      ⟨.AWAITING_MODEL :: .DISPATCHING_TOOLS ::
          (runFrom reg llm n (round + 1) (conv ++ dispatchCalls reg calls)).states,
        (runFrom reg llm n (round + 1) (conv ++ dispatchCalls reg calls)).result,
        (runFrom reg llm n (round + 1) (conv ++ dispatchCalls reg calls)).trace,
        (runFrom reg llm n (round + 1) (conv ++ dispatchCalls reg calls)).rounds + 1⟩ := by
  rw [runFrom_succ, h]

/-- The orchestrator loop always starts by entering AWAITING_MODEL. -/
lemma runFrom_states_head (reg : Registry) (llm : Nat → LLMResponse)
    (k round : Nat) (conv : List Turn) :
    ∃ tail, (runFrom reg llm k round conv).states = .AWAITING_MODEL :: tail := by
  cases hr : llm round with
  | finalAnswer a =>
    cases k with
    | zero => exact ⟨[.DONE], by rw [runFrom_zero, hr]⟩
    | succ n => exact ⟨[.DONE], by rw [runFrom_succ, hr]⟩
  | toolCalls calls =>
    cases k with
    | zero => exact ⟨[.FAILED], by rw [runFrom_calls_zero reg llm round conv calls hr]⟩
    | succ n =>
      exact ⟨.DISPATCHING_TOOLS ::
          (runFrom reg llm n (round + 1) (conv ++ dispatchCalls reg calls)).states,
        by rw [runFrom_calls_succ reg llm n round conv calls hr]⟩

/-- When the model keeps requesting tools, the loop performs exactly one
dispatch round per remaining iteration and then fails with the iteration
limit error. -/
lemma runFrom_limit (reg : Registry) (llm : Nat → LLMResponse)
    (hreq : ∀ r, requestsTools (llm r) = true) :
    ∀ (k round : Nat) (conv : List Turn),
      (runFrom reg llm k round conv).rounds = k ∧
      (runFrom reg llm k round conv).result = .error .IterationLimitExceededError ∧
      (runFrom reg llm k round conv).states.count .DISPATCHING_TOOLS = k ∧
      .FAILED ∈ (runFrom reg llm k round conv).states ∧
      .DONE ∉ (runFrom reg llm k round conv).states := by
  intro k
  induction k with
  | zero =>
    intro round conv
    obtain ⟨calls, hc⟩ := requestsTools_eq (hreq round)
    rw [runFrom_calls_zero reg llm round conv calls hc]
    refine ⟨rfl, rfl, rfl, ?_, ?_⟩
    · show RunState.FAILED ∈ [RunState.AWAITING_MODEL, RunState.FAILED]
      decide
    · show RunState.DONE ∉ [RunState.AWAITING_MODEL, RunState.FAILED]
      decide
  | succ n ih =>
    intro round conv
    obtain ⟨calls, hc⟩ := requestsTools_eq (hreq round)
    have IH := ih (round + 1) (conv ++ dispatchCalls reg calls)
    rw [runFrom_calls_succ reg llm n round conv calls hc]
    refine ⟨?_, ?_, ?_, ?_, ?_⟩
    · show (runFrom reg llm n (round + 1) (conv ++ dispatchCalls reg calls)).rounds + 1 = n + 1
      rw [IH.1]
    · exact IH.2.1
    · show (RunState.AWAITING_MODEL :: RunState.DISPATCHING_TOOLS ::
          (runFrom reg llm n (round + 1) (conv ++ dispatchCalls reg calls)).states).count
          .DISPATCHING_TOOLS = n + 1
      simp [List.count_cons, IH.2.2.1]
    · show RunState.FAILED ∈ RunState.AWAITING_MODEL :: RunState.DISPATCHING_TOOLS ::
          (runFrom reg llm n (round + 1) (conv ++ dispatchCalls reg calls)).states
      exact List.mem_cons.mpr (Or.inr (List.mem_cons.mpr (Or.inr IH.2.2.2.1)))
    · show RunState.DONE ∉ RunState.AWAITING_MODEL :: RunState.DISPATCHING_TOOLS ::
          (runFrom reg llm n (round + 1) (conv ++ dispatchCalls reg calls)).states
      intro hd
      rcases List.mem_cons.mp hd with hd | hd
      · cases hd
      · rcases List.mem_cons.mp hd with hd | hd
        · cases hd
        · exact IH.2.2.2.2 hd

/-- C3: when every model round requests tools, an analysis run with
iteration bound k performs exactly k dispatch rounds and terminates in
FAILED with IterationLimitExceededError. -/
theorem iteration_limit_enforced (reg : Registry) (agent : AgentDefinition)
    (llm : Nat → LLMResponse) (payload : JValue) (k : Nat)
    (hok : ∀ n ∈ agent.tool_names, ∃ d, findTool reg n = some d ∧ d.enabled = true)
    (hreq : ∀ r, requestsTools (llm r) = true) :
    (analyze reg agent llm payload k).rounds = k ∧
    (analyze reg agent llm payload k).result = .error .IterationLimitExceededError ∧
    (analyze reg agent llm payload k).states.count .DISPATCHING_TOOLS = k ∧
    .FAILED ∈ (analyze reg agent llm payload k).states ∧
    .DONE ∉ (analyze reg agent llm payload k).states := by
  have hstale : staleTools reg agent = [] := by
    refine List.filter_eq_nil_iff.mpr ?_
    intro n hn
    obtain ⟨d, hd, he⟩ := hok n hn
    simp [hd, he]
  have R := runFrom_limit reg llm hreq k 0 (initialConv reg agent payload)
  refine ⟨?_, ?_, ?_, ?_, ?_⟩
  · simp [analyze, hstale, R.1]
  · simp [analyze, hstale, R.2.1]
  · simp [analyze, hstale, List.count_cons, R.2.2.1]
  · simp [analyze, hstale]
    exact R.2.2.2.1
  · simp [analyze, hstale]
    exact R.2.2.2.2

/-- C3 witness: with bound 2 and an LLM that always requests the account
tool, the run fails with the iteration limit after exactly 2 rounds. -/
theorem iteration_limit_enforced_witness :
    (analyze demoRegistry2 demoAgent demoLLM (.obj []) 2).rounds = 2 ∧
    (analyze demoRegistry2 demoAgent demoLLM (.obj []) 2).result
      = .error .IterationLimitExceededError ∧
    (analyze demoRegistry2 demoAgent demoLLM (.obj []) 2).states.count .DISPATCHING_TOOLS = 2 ∧
    .FAILED ∈ (analyze demoRegistry2 demoAgent demoLLM (.obj []) 2).states := by
  have H := iteration_limit_enforced demoRegistry2 demoAgent demoLLM (.obj []) 2
    (by intro n hn
        simp [demoAgent] at hn
        subst hn
        exact ⟨demoFailTool, rfl, rfl⟩)
    (fun r => rfl)
  exact ⟨H.1, H.2.1, H.2.2.1, H.2.2.2.1⟩

/-- C5: if some referenced tool no longer resolves to an enabled
descriptor, the next analysis run fails during context building with
StaleToolReferenceError, performing no round, and its outcome is
independent of the LLM, which is never called. -/
theorem stale_tool_reference (reg : Registry) (agent : AgentDefinition)
    (llm : Nat → LLMResponse) (payload : JValue) (k : Nat)
    (hstale : ∃ n ∈ agent.tool_names,
      findTool reg n = none ∨ ∃ d, findTool reg n = some d ∧ d.enabled = false) :
    (∃ m, (analyze reg agent llm payload k).result = .error (.StaleToolReferenceError m)) ∧
    (analyze reg agent llm payload k).states = [.BUILDING_CONTEXT, .FAILED] ∧
    (analyze reg agent llm payload k).rounds = 0 ∧
    (∀ llm2, analyze reg agent llm2 payload k = analyze reg agent llm payload k) := by
  have hne : staleTools reg agent ≠ [] := by
    rcases hstale with ⟨n, hn, hcase⟩
    have hpred : (match findTool reg n with
        | some d => !d.enabled
        | none => true) = true := by
      rcases hcase with hnone | ⟨d, hd, he⟩
      · simp [hnone]
      · simp [hd, he]
    exact List.ne_nil_of_mem (List.mem_filter.mpr ⟨hn, hpred⟩)
  obtain ⟨m, rest, hs⟩ : ∃ m rest, staleTools reg agent = m :: rest := by
    cases hx : staleTools reg agent with
    | nil => exact absurd hx hne
    | cons m rest => exact ⟨m, rest, rfl⟩
  refine ⟨⟨m, ?_⟩, ?_, ?_, ?_⟩
  · simp [analyze, hs]
  · simp [analyze, hs]
  · simp [analyze, hs]
  · intro llm2
    simp [analyze, hs]

/-- C5 witness: the agent referencing the now-disabled clock tool fails
with StaleToolReferenceError before any model call. -/
theorem stale_tool_reference_witness :
    (∃ m, (analyze demoRegistry3 demoStaleAgent demoLLM (.obj []) 5).result
      = .error (.StaleToolReferenceError m)) ∧
    (analyze demoRegistry3 demoStaleAgent demoLLM (.obj []) 5).states
      = [.BUILDING_CONTEXT, .FAILED] ∧
    (analyze demoRegistry3 demoStaleAgent demoLLM (.obj []) 5).rounds = 0 := by
  have H := stale_tool_reference demoRegistry3 demoStaleAgent demoLLM (.obj []) 5
    ⟨"get_clock", by simp [demoStaleAgent], Or.inr ⟨demoDisabledTool, rfl, rfl⟩⟩
  exact ⟨H.1, H.2.1, H.2.2.1⟩

/-- C2: a handler failure is surfaced as ToolExecutionError with the
original category and message, the dispatched round records it as a
tagged tool-result turn, and the run transitions back to AWAITING_MODEL
rather than terminating. -/
theorem handler_failure_surfaced (reg : Registry) (name : String)
    (args : List (String × JValue)) (d : ToolDescriptor) (f : ToolFailure)
    (hfind : findTool reg name = some d) (hen : d.enabled = true)
    (hval : validationErrors d args = [])
    (hfail : d.handler (withDefaults d args) = .error f) :
    execute reg name args = .error (.ToolExecutionError f.category f.message) ∧
    (∀ (c : ToolCall) (calls : List ToolCall) (llm : Nat → LLMResponse)
        (round : Nat) (conv : List Turn) (n : Nat),
      c.name = name → c.arguments = args → c ∈ calls → llm round = .toolCalls calls →
      Turn.toolResult c.id (.error (.ToolExecutionError f.category f.message))
          ∈ dispatchCalls reg calls ∧
      ∃ tail, (runFrom reg llm (n + 1) round conv).states
          = .AWAITING_MODEL :: .DISPATCHING_TOOLS :: .AWAITING_MODEL :: tail) := by
  have hexec : execute reg name args = .error (.ToolExecutionError f.category f.message) := by
    simp [execute, hfind, executeDescriptor, hen, hval, hfail]
  refine ⟨hexec, ?_⟩
  intro c calls llm round conv n hcn hca hcm hllm
  constructor
  · refine List.mem_map.mpr ⟨c, hcm, ?_⟩
    rw [hcn, hca, hexec]
  · obtain ⟨tail, htail⟩ := runFrom_states_head reg llm n (round + 1)
      (conv ++ dispatchCalls reg calls)
    refine ⟨tail, ?_⟩
    rw [runFrom_calls_succ reg llm n round conv calls hllm]
    show RunState.AWAITING_MODEL :: RunState.DISPATCHING_TOOLS ::
        (runFrom reg llm n (round + 1) (conv ++ dispatchCalls reg calls)).states = _
    rw [htail]

/-- C2 witness: the rate-limited account tool surfaces
ToolExecutionError RATE_LIMITED and the run returns to
AWAITING_MODEL. -/
theorem handler_failure_surfaced_witness :
    execute demoRegistry2 "get_account" []
      = .error (.ToolExecutionError .RATE_LIMITED "rate limited") ∧
    Turn.toolResult 1 (.error (.ToolExecutionError .RATE_LIMITED "rate limited"))
      ∈ dispatchCalls demoRegistry2 [demoCall] ∧
    ∃ tail, (runFrom demoRegistry2 demoLLM 1 0 []).states
      = .AWAITING_MODEL :: .DISPATCHING_TOOLS :: .AWAITING_MODEL :: tail := by
  have H := handler_failure_surfaced demoRegistry2 "get_account" [] demoFailTool
    ⟨.RATE_LIMITED, "rate limited"⟩ rfl rfl rfl rfl
  have H2 := H.2 demoCall [demoCall] demoLLM 0 [] 0 rfl rfl (List.mem_cons_self _ _) rfl
  exact ⟨H.1, H2.1, H2.2⟩

end HedgeFund
